import Mathlib

/-!
Shallow embedding of the core of the `greattunes` / `creative_project`
repository: the convergence evaluator
(`Validators.__continue_iterating_rel_tol_conditions` from
`creative_project/_validators.py`), the covariate validation
(`Validators.__validate_covars`), the constructor configuration handling
(`CreativeProject.__init__` from `creative_project/__init__.py` and the
model-type dispatch of `creative_project/_modeling.py`), and the
best-response tracker.

Numbers are modelled by `ℚ` (exact arithmetic standing in for Python
floats), tensors of shape (n, 1) by `List ℚ`, and Python exceptions by
`Option`/`Except`.
-/

namespace Greattunes

/-- Python slice index normalisation: a negative index `i` means `i + n`,
and the result is clamped into `[0, n]`.  This is the semantics of
`l[i:j]` index handling in Python. -/
def pyIdx (n : ℕ) (i : ℤ) : ℕ :=
  if i < 0 then (max 0 (i + n)).toNat else min i.toNat n

/-- Python slice `l[i:j]` (tensor slicing along dim 0 behaves the same). -/
def pySlice {α : Type} (l : List α) (i j : ℤ) : List α :=
  (l.take (pyIdx l.length j)).drop (pyIdx l.length i)

/-- Python slice `l[i:]`. -/
def pySliceFrom {α : Type} (l : List α) (i : ℤ) : List α :=
  l.drop (pyIdx l.length i)

/-- Embedding of `Validators.__continue_iterating_rel_tol_conditions`
(`creative_project/_validators.py`, lines 127-178).

* `best_response_value` models the `(n, 1)` tensor `self.best_response_value`
  as a list of its entries;
* `rel_tol = none` / `rel_tol_steps = none` model the Python `None` cases;
* the result is `none` exactly when the Python code raises: `torch.cat`
  (line 164) fails with a `RuntimeError` when its two slice arguments have
  different numbers of rows, since it concatenates along `dim=1`.

Statement by statement: `continue_iterating = True`; if `rel_tol` is not
`None` and `rel_tol_steps` is `None` then `rel_tol_steps = 1`; if both are
set and the series has at least `rel_tol_steps` entries, build
`best_response_value[-(rel_tol_steps+1):-1]` and
`best_response_value[-rel_tol_steps:]`, concatenate columnwise
(requires equal lengths), take `np.diff` along the rows and divide by the
second column, compare each relative difference strictly against
`rel_tol`, and stop (return `False`) when the count of comparisons that
hold equals `rel_tol_steps`. -/
def continue_iterating_rel_tol_conditions (best_response_value : List ℚ)
    (rel_tol : Option ℚ) (rel_tol_steps : Option ℤ) : Option Bool :=
  let continue_iterating := true
  let steps : Option ℤ :=
    if rel_tol.isSome && rel_tol_steps.isNone then some 1 else rel_tol_steps
  match rel_tol, steps with
  | some rt, some k =>
    if k ≤ (best_response_value.length : ℤ) then
      let left := pySlice best_response_value (-(k + 1)) (-1)
      let right := pySliceFrom best_response_value (-k)
      if left.length = right.length then
        let tmp_rel_diff := (left.zip right).map (fun p => (p.2 - p.1) / p.2)
        let below_rel_tol := tmp_rel_diff.map (fun d => decide (d < rt))
        let s := (below_rel_tol.map (fun b => if b then (1 : ℤ) else 0)).sum
        if s = k then some false else some continue_iterating
      else none
    else some continue_iterating
  | _, _ => some continue_iterating

/-- The `k` consecutive relative differences over the last `k+1` entries of
the series, each normalised by the later value of its pair:
`(later - earlier) / later`.  This is the quantity the stopping rule of the
specification is phrased in. -/
def relDiffsLast (brv : List ℚ) (k : ℕ) : List ℚ :=
  let tail := brv.drop (brv.length - (k + 1))
  (tail.zip tail.tail).map (fun p => (p.2 - p.1) / p.2)

/-- Zipping with a shorter list truncates the longer one: taking the
shorter length first changes nothing. -/
theorem zip_take_length {α β : Type} :
    ∀ (l' : List β) (l : List α), (l.take l'.length).zip l' = l.zip l'
  | [], l => by simp
  | _ :: _, [] => by simp
  | b :: bs, a :: as => by
    simp only [List.length_cons, List.take_succ_cons, List.zip_cons_cons,
      zip_take_length bs as]

/-- The sum of 0/1 indicators over a list of booleans is at most the length. -/
theorem boolSum_le_length (l : List Bool) :
    ((l.map (fun b => if b then (1 : ℤ) else 0)).sum) ≤ l.length := by
  induction l with
  | nil => simp
  | cons b bs ih =>
    cases b
    · simp only [List.map_cons, List.sum_cons, List.length_cons]
      norm_num
      omega
    · simp only [List.map_cons, List.sum_cons, List.length_cons]
      norm_num
      omega

/-- The sum of 0/1 indicators equals the length exactly when every boolean
in the list is `true` (this is how the `sum(below_rel_tol) ==
rel_tol_steps` test of the source expresses "all below tolerance"). -/
theorem boolSum_eq_length_iff (l : List Bool) :
    ((l.map (fun b => if b then (1 : ℤ) else 0)).sum = l.length) ↔
      ∀ b ∈ l, b = true := by
  induction l with
  | nil => simp
  | cons b bs ih =>
    have hle := boolSum_le_length bs
    cases b
    · simp only [List.map_cons, List.sum_cons, List.length_cons,
        List.mem_cons, forall_eq_or_imp]
      norm_num
      omega
    · simp only [List.map_cons, List.sum_cons, List.length_cons,
        List.mem_cons, forall_eq_or_imp, ← ih]
      norm_num
      omega

/-- Value of `pyIdx` at a negative in-range index. -/
theorem pyIdx_neg (n : ℕ) (i : ℤ) (h : i < 0) (h2 : 0 ≤ i + n) :
    pyIdx n i = (i + n).toNat := by
  unfold pyIdx
  rw [if_pos h, max_eq_right h2]

/-- Under the preconditions `1 ≤ k` and `k + 1 ≤ length`, the convergence
check reduces to the stopping rule of the specification: return `False` when all
`k` relative differences over the last `k + 1` entries are strictly below
`rel_tol`, and `True` otherwise. -/
theorem contRelTol_eval (r : ℚ) (k : ℕ) (hk : 1 ≤ k) (brv : List ℚ)
    (hlen : k + 1 ≤ brv.length) :
    continue_iterating_rel_tol_conditions brv (some r) (some (k : ℤ)) =
      if ∀ d ∈ relDiffsLast brv k, d < r then some false else some true := by
  have h1 : pyIdx brv.length (-((k : ℤ) + 1)) = brv.length - (k + 1) := by
    rw [pyIdx_neg _ _ (by omega) (by omega)]; omega
  have h2 : pyIdx brv.length (-1) = brv.length - 1 := by
    rw [pyIdx_neg _ _ (by omega) (by omega)]; omega
  have h3 : pyIdx brv.length (-(k : ℤ)) = brv.length - k := by
    rw [pyIdx_neg _ _ (by omega) (by omega)]; omega
  have hleft : pySlice brv (-((k : ℤ) + 1)) (-1) =
      (brv.drop (brv.length - (k + 1))).take k := by
    unfold pySlice
    rw [h1, h2, List.drop_take]
    congr 1
    omega
  have hright : pySliceFrom brv (-(k : ℤ)) =
      (brv.drop (brv.length - (k + 1))).tail := by
    unfold pySliceFrom
    rw [h3, ← List.drop_one, List.drop_drop]
    congr 1
    omega
  have htlen : (brv.drop (brv.length - (k + 1))).length = k + 1 := by
    rw [List.length_drop]; omega
  have httlen : (brv.drop (brv.length - (k + 1))).tail.length = k := by
    rw [List.length_tail, htlen]
    omega
  have hzip : (pySlice brv (-((k : ℤ) + 1)) (-1)).zip (pySliceFrom brv (-(k : ℤ))) =
      (brv.drop (brv.length - (k + 1))).zip (brv.drop (brv.length - (k + 1))).tail := by
    have hz := zip_take_length (brv.drop (brv.length - (k + 1))).tail
      (brv.drop (brv.length - (k + 1)))
    rw [httlen] at hz
    rw [hleft, hright, hz]
  have hlens : (pySlice brv (-((k : ℤ) + 1)) (-1)).length =
      (pySliceFrom brv (-(k : ℤ))).length := by
    rw [hleft, hright, List.length_take, htlen, List.length_tail, htlen]
    omega
  have hdlen : (relDiffsLast brv k).length = k := by
    simp only [relDiffsLast]
    rw [List.length_map, List.length_zip, htlen, List.length_tail, htlen]
    omega
  have hiff :
      (((((brv.drop (brv.length - (k + 1))).zip
              (brv.drop (brv.length - (k + 1))).tail).map
            (fun p => (p.2 - p.1) / p.2)).map (fun d => decide (d < r))).map
          (fun b => if b then (1 : ℤ) else 0)).sum = (k : ℤ) ↔
        ∀ d ∈ relDiffsLast brv k, d < r := by
    have h0 := boolSum_eq_length_iff
      ((relDiffsLast brv k).map (fun d => decide (d < r)))
    rw [List.length_map, hdlen] at h0
    simp only [relDiffsLast] at h0 ⊢
    rw [h0]
    simp only [List.mem_map, forall_exists_index, and_imp, Prod.exists,
      decide_eq_true_eq]
    aesop
  unfold continue_iterating_rel_tol_conditions
  simp only [Option.isSome_some, Option.isNone_some, Bool.and_false,
    Bool.false_eq_true, if_false]
  rw [if_pos (by exact_mod_cast Nat.le_of_succ_le hlen), if_pos hlens, hzip]
  by_cases hP : ∀ d ∈ relDiffsLast brv k, d < r
  · rw [if_pos (hiff.mpr hP), if_pos hP]
  · rw [if_neg (fun h => hP (hiff.mp h)), if_neg hP]

/-- C5: with `rel_tol = None` every call returns `True`, whatever the series
(including the empty one) and whatever `rel_tol_steps` is. -/
theorem rel_tol_none_always_continue (brv : List ℚ) (steps : Option ℤ) :
    continue_iterating_rel_tol_conditions brv none steps = some true := by
  cases steps <;> rfl

/-- C4: `rel_tol_steps = None` is treated as `rel_tol_steps = 1`: for every
`rel_tol` value and every series the two calls agree; and at `rel_tol = 0.1`
on the series `[1.0, 1.04]` the call returns `False`. -/
theorem rel_tol_steps_none_equiv_one :
    (∀ (r : ℚ) (brv : List ℚ),
      continue_iterating_rel_tol_conditions brv (some r) none =
        continue_iterating_rel_tol_conditions brv (some r) (some 1)) ∧
    continue_iterating_rel_tol_conditions [1, 26/25] (some (1/10)) none =
      some false := by
  constructor
  · intro r brv
    rfl
  · simp only [continue_iterating_rel_tol_conditions, pySlice, pySliceFrom, pyIdx]
    norm_num

/-- C1: for every `rel_tol`, every `rel_tol_steps ≥ 1` and every series with
at least `rel_tol_steps + 1` entries, the check returns `False` exactly when
all `rel_tol_steps` consecutive relative differences `(later - earlier) /
later` over the last `rel_tol_steps + 1` entries are strictly below
`rel_tol`, and returns `True` otherwise. -/
theorem rel_tol_stop_iff_all_diffs_below (r : ℚ) (k : ℕ) (brv : List ℚ)
    (hk : 1 ≤ k) (hlen : k + 1 ≤ brv.length) :
    ((continue_iterating_rel_tol_conditions brv (some r) (some (k : ℤ)) =
        some false) ↔ (∀ d ∈ relDiffsLast brv k, d < r)) ∧
    ((continue_iterating_rel_tol_conditions brv (some r) (some (k : ℤ)) =
        some true) ↔ ¬ (∀ d ∈ relDiffsLast brv k, d < r)) := by
  rw [contRelTol_eval r k hk brv hlen]
  by_cases hP : ∀ d ∈ relDiffsLast brv k, d < r
  · rw [if_pos hP]
    exact ⟨iff_of_true rfl hP, iff_of_false (by simp) (not_not_intro hP)⟩
  · rw [if_neg hP]
    exact ⟨iff_of_false (by simp) hP, iff_of_true rfl hP⟩

/-- Witness for C1: at `rel_tol = 0.05`, `rel_tol_steps = 2` the check stops
on `[1.0, 1.01, 1.02]` and continues on `[1.0, 1.5, 1.51]`. -/
theorem rel_tol_stop_iff_all_diffs_below_witness :
    continue_iterating_rel_tol_conditions [1, 101/100, 51/50] (some (1/20))
        (some 2) = some false ∧
    continue_iterating_rel_tol_conditions [1, 3/2, 151/100] (some (1/20))
        (some 2) = some true := by
  constructor
  · exact (rel_tol_stop_iff_all_diffs_below (1/20) 2 [1, 101/100, 51/50]
      (by norm_num) (by norm_num)).1.mpr (by norm_num [relDiffsLast])
  · exact (rel_tol_stop_iff_all_diffs_below (1/20) 2 [1, 3/2, 151/100]
      (by norm_num) (by norm_num)).2.mpr (by norm_num [relDiffsLast])

/-- C2 (code bug): with `rel_tol_steps = 2` and a series of exactly 2
entries the guard `len(best_response_value) >= rel_tol_steps` passes, but the
two slices `[-(rel_tol_steps+1):-1]` and `[-rel_tol_steps:]` have 1 and 2
rows respectively, so the columnwise `torch.cat` raises a `RuntimeError`
(modelled as `none`) instead of returning a boolean. -/
theorem rel_tol_check_crashes_at_exactly_k_entries :
    continue_iterating_rel_tol_conditions [1, 11/10] (some (1/10)) (some 2) =
      none := by
  simp only [continue_iterating_rel_tol_conditions, pySlice, pySliceFrom,
    pyIdx]
  norm_num

/-- C6 (counterexample): a negative tolerance is not rejected: with
`rel_tol = -1`, `rel_tol_steps = 2` on the series `[1, 2, 3]` the criterion
is evaluated with the invalid configuration and returns `True`; no
configuration validation (and no `InvalidConfigError`) exists in the code. -/
theorem negative_rel_tol_evaluated_not_rejected :
    continue_iterating_rel_tol_conditions [1, 2, 3] (some (-1)) (some 2) =
      some true := by
  simp only [continue_iterating_rel_tol_conditions, pySlice, pySliceFrom,
    pyIdx]
  norm_num [show Int.toNat 2 = 2 from rfl, Function.comp]

/-- C6 (amended): `rel_tol` and `rel_tol_steps` undergo no type/range
validation: even a negative tolerance is used directly, and whenever the
series is long enough the criterion is evaluated with it and a boolean is
returned (never an error). -/
theorem rel_tol_unvalidated_still_evaluates (r : ℚ) (hr : r < 0) (k : ℕ)
    (hk : 1 ≤ k) (brv : List ℚ) (hlen : k + 1 ≤ brv.length) :
    ∃ b, continue_iterating_rel_tol_conditions brv (some r) (some (k : ℤ)) =
      some b := by
  rw [contRelTol_eval r k hk brv hlen]
  by_cases hP : ∀ d ∈ relDiffsLast brv k, d < r
  · exact ⟨false, if_pos hP⟩
  · exact ⟨true, if_neg hP⟩

/-- Witness for the amended C6 at `rel_tol = -1`, `rel_tol_steps = 1`,
series `[1, 2, 3]`. -/
theorem rel_tol_unvalidated_still_evaluates_witness :
    ∃ b, continue_iterating_rel_tol_conditions [1, 2, 3] (some (-1))
      (some (1 : ℕ)) = some b :=
  rel_tol_unvalidated_still_evaluates (-1) (by norm_num) 1 (by norm_num)
    [1, 2, 3] (by norm_num)

/-- The instance state the convergence check reads, modelling the attributes
of `CreativeProject` that the loop mutates elsewhere: the best-response
series, the covariates achieving it, and the training data. -/
structure CreativeProjectState where
  best_response_value : List ℚ
  covariates_best_response_value : List (List ℚ)
  train_X : List (List ℚ)
  train_Y : List ℚ
  deriving Repr, DecidableEq

/-- The convergence check as a method on the instance state: the Python
body contains no assignment to any `self` attribute, so the embedding
returns the result together with the state, statement for statement
unchanged. -/
def continue_iterating_method (self : CreativeProjectState)
    (rel_tol : Option ℚ) (rel_tol_steps : Option ℤ) :
    Option Bool × CreativeProjectState :=
  (continue_iterating_rel_tol_conditions self.best_response_value rel_tol
    rel_tol_steps, self)

/-- C9: evaluating the convergence check leaves the whole instance state —
in particular `best_response_value`, `train_X` and `train_Y` — unchanged,
and re-running it on the resulting state with the same arguments returns
the identical result. -/
theorem continue_iterating_preserves_state (s : CreativeProjectState)
    (rel_tol : Option ℚ) (rel_tol_steps : Option ℤ) :
    (continue_iterating_method s rel_tol rel_tol_steps).2 = s ∧
    (continue_iterating_method s rel_tol rel_tol_steps).2.best_response_value
      = s.best_response_value ∧
    (continue_iterating_method s rel_tol rel_tol_steps).2.train_X = s.train_X ∧
    (continue_iterating_method s rel_tol rel_tol_steps).2.train_Y = s.train_Y ∧
    continue_iterating_method
        ((continue_iterating_method s rel_tol rel_tol_steps).2) rel_tol
        rel_tol_steps =
      continue_iterating_method s rel_tol rel_tol_steps :=
  ⟨rfl, rfl, rfl, rfl, rfl⟩

/-- A fragment of the Python value universe, enough to express everything
`Validators.__validate_covars` can be applied to. -/
inductive PyVal where
  | pynone : PyVal
  | pyint : ℤ → PyVal
  | pyfloat : ℚ → PyVal
  | pybool : Bool → PyVal
  | pystr : String → PyVal
  | pytuple : List PyVal → PyVal
  | pylist : List PyVal → PyVal

/-- Python check `isinstance(x, tuple)`. -/
def isTuple : PyVal → Bool
  | .pytuple _ => true
  | _ => false

/-- Python check `isinstance(x, (float, int))`; `bool` is a subclass of `int`, so
booleans also pass. -/
def isFloatOrInt : PyVal → Bool
  | .pyfloat _ => true
  | .pyint _ => true
  | .pybool _ => true
  | _ => false

/-- The elements of a tuple value (iteration over a tuple). -/
def tupleElems : PyVal → List PyVal
  | .pytuple l => l
  | _ => []

/-- Embedding of `Validators.__validate_covars`
(`creative_project/_validators.py`, lines 69-107): raise `ValueError` when
`covars` is `None`; raise `TypeError` when it is not a list; first loop:
raise `TypeError` when some entry is not a tuple; second loop: raise
`TypeError` when some tuple element is neither `float` nor `int`; otherwise
set `valid = True` and return it.  The raised exceptions are modelled as
`Except.error` with the message text. -/
def validate_covars (covars : PyVal) : Except String Bool :=
  match covars with
  | .pynone =>
    .error ("kre8_core.creative_project._validators.Validator.__validate_covars: covars is None")
  | .pylist entries =>
    if entries.all isTuple then
      if entries.all (fun entry => (tupleElems entry).all isFloatOrInt) then
        .ok true
      else
        .error ("kre8_core.creative_project._validators.Validator.__validate_covars: tuple element in covars list is neither of type float or int")
    else
      .error ("kre8_core.creative_project._validators.Validator.__validate_covars: entry in covars list is not tuple")
  | _ =>
    .error ("kre8_core.creative_project._validators.Validator.__validate_covars: covars is not list of tuples (not list)")

/-- C8 (counterexample): the covars validation accepts the dimension tuple
`(5.0, 0.0, 1.0)` although its initial guess 5 lies outside the bounds
`[0, 1]`; the bounds invariant is not checked anywhere in the validation. -/
theorem validate_covars_accepts_out_of_bounds_guess :
    validate_covars (PyVal.pylist
        [PyVal.pytuple [PyVal.pyfloat 5, PyVal.pyfloat 0, PyVal.pyfloat 1]]) =
      Except.ok true ∧
    ¬ ((0 : ℚ) ≤ 5 ∧ (5 : ℚ) ≤ 1) := by
  constructor
  · rfl
  · norm_num

/-- C8 (amended): the construction-time covars validation checks only that
`covars` is a list of tuples of numbers; any single dimension tuple
`(initial_guess, lower_bound, upper_bound)` of floats is accepted whatever
the order relation between its three components. -/
theorem validate_covars_ignores_bounds (g lo hi : ℚ) :
    validate_covars (PyVal.pylist
        [PyVal.pytuple [PyVal.pyfloat g, PyVal.pyfloat lo, PyVal.pyfloat hi]]) =
      Except.ok true := rfl

/-- C10: the covars validation returns `True` on every list of tuples whose
elements are all floats or ints — including the empty list and tuples whose
length differs from three. -/
theorem validate_covars_accepts_typed_tuples (entries : List (List PyVal))
    (h : ∀ e ∈ entries, ∀ el ∈ e, isFloatOrInt el = true) :
    validate_covars (PyVal.pylist (entries.map PyVal.pytuple)) =
      Except.ok true := by
  simp only [validate_covars]
  rw [if_pos, if_pos]
  · rw [List.all_eq_true]
    intro entry hentry
    rw [List.mem_map] at hentry
    obtain ⟨e, he, rfl⟩ := hentry
    rw [List.all_eq_true]
    intro el hel
    exact h e he el hel
  · rw [List.all_eq_true]
    intro entry hentry
    rw [List.mem_map] at hentry
    obtain ⟨e, _, rfl⟩ := hentry
    rfl

/-- Witness for C10: the empty covars list and a single 2-tuple (one entry
short of the `(initial_guess, lower_bound, upper_bound)` shape) both pass. -/
theorem validate_covars_accepts_typed_tuples_witness :
    validate_covars (PyVal.pylist []) = Except.ok true ∧
    validate_covars (PyVal.pylist
        [PyVal.pytuple [PyVal.pyfloat 1, PyVal.pyint 2]]) = Except.ok true :=
  ⟨validate_covars_accepts_typed_tuples []
     (fun e he => absurd he (List.not_mem_nil e)),
   validate_covars_accepts_typed_tuples [[PyVal.pyfloat 1, PyVal.pyint 2]]
     (by
       intro e he el hel
       simp only [List.mem_singleton] at he
       subst he
       fin_cases hel <;> rfl)⟩

/-- The `self.model` dictionary built by `CreativeProject.__init__`
(`creative_project/__init__.py`, lines 54-62): the caller-supplied model
name is stored as `model_type` with no validation; the model, likelihood
and log-likelihood slots start out as `None` and the iteration counters at
0. -/
structure ModelDict where
  model_type : String
  model : Option Unit
  likelihood : Option Unit
  loglikelihood : Option Unit
  covars_proposed_iter : ℕ
  covars_sampled_iter : ℕ
  response_sampled_iter : ℕ

/-- Embedding of the configuration part of `CreativeProject.__init__`
(`creative_project/__init__.py`, lines 17-93).  The covars argument is
validated (the class docstring states `Initializers` is a child of
`Validators`, and the covars path runs through
`Validators.__validate_covars`, the only covars check present in the
sources), and any raised exception propagates out of the constructor.
The `model` string is stored into the model dictionary untouched: the
constructor contains no check of the model name (the source even carries a
TODO in `_set_GP_model` noting the check is missing). -/
def creativeProject_init (covars : PyVal) (model : String) :
    Except String ModelDict :=
  match validate_covars covars with
  | .error e => .error e
  | .ok _ =>
    .ok { model_type := model, model := none, likelihood := none,
          loglikelihood := none, covars_proposed_iter := 0,
          covars_sampled_iter := 0, response_sampled_iter := 0 }

/-- Embedding of the model-variant dispatch of `_set_GP_model`
(`creative_project/_modeling.py`, lines 30-63): `SingleTaskGP` and `Custom`
are accepted (the function then fits the model and returns its success
string); every other `model_type` raises a plain `Exception` — not an
`InvalidConfigError` — whose message lists the allowed variants. -/
def set_GP_model_select (model_type : String) : Except String String :=
  if model_type = "SingleTaskGP" then
    Except.ok ("Successfully trained GP model")
  else if model_type = "Custom" then
    Except.ok ("Successfully trained GP model")
  else
    Except.error ("creative_project._modeling._set_GP_model: unknown model_type (" ++
      model_type ++ ") provided. Must be in following list [Custom, SingleTaskGP]")

/-- C7 (counterexample): constructing with the unrecognized model variant
`Bogus` succeeds — the constructor stores the name unvalidated instead of
rejecting it eagerly. -/
theorem init_accepts_unrecognized_model :
    creativeProject_init (PyVal.pylist
        [PyVal.pytuple [PyVal.pyfloat 0, PyVal.pyfloat (-2), PyVal.pyfloat 2]])
        ("Bogus") =
      Except.ok { model_type := ("Bogus"), model := none, likelihood := none,
                  loglikelihood := none, covars_proposed_iter := 0,
                  covars_sampled_iter := 0, response_sampled_iter := 0 } := rfl

/-- C7 (amended): unrecognized model variants are accepted at construction
(the string is stored as-is whenever the covars validate); the rejection
only happens on the first model fit, where `_set_GP_model` raises a generic
`Exception` for any name outside `SingleTaskGP`/`Custom`. -/
theorem unknown_model_rejected_at_fit_not_init (m : String)
    (h1 : m ≠ "SingleTaskGP") (h2 : m ≠ "Custom") (covars : PyVal)
    (hc : validate_covars covars = Except.ok true) :
    (∃ st, creativeProject_init covars m = Except.ok st ∧
      st.model_type = m) ∧
    (∃ e, set_GP_model_select m = Except.error e) := by
  constructor
  · exact ⟨{ model_type := m, model := none, likelihood := none,
             loglikelihood := none, covars_proposed_iter := 0,
             covars_sampled_iter := 0, response_sampled_iter := 0 },
           by unfold creativeProject_init; rw [hc], rfl⟩
  · unfold set_GP_model_select
    rw [if_neg h1, if_neg h2]
    exact ⟨_, rfl⟩

/-- Witness for the amended C7 at model name `Bogus` with a well-formed
covars list. -/
theorem unknown_model_rejected_at_fit_not_init_witness :
    (∃ st, creativeProject_init (PyVal.pylist
        [PyVal.pytuple [PyVal.pyfloat 0, PyVal.pyfloat (-2), PyVal.pyfloat 2]])
        ("Bogus") = Except.ok st ∧ st.model_type = ("Bogus")) ∧
    (∃ e, set_GP_model_select ("Bogus") = Except.error e) :=
  unknown_model_rejected_at_fit_not_init ("Bogus") (by decide) (by decide)
    (PyVal.pylist
      [PyVal.pytuple [PyVal.pyfloat 0, PyVal.pyfloat (-2), PyVal.pyfloat 2]])
    rfl

/-- Modelled from the spec: helper scan for the best-response tracker.
The module holding `find_max_response_value`
(`creative_project._max_response`, imported by the unit tests, re-exported
to `CreativeProject` through `_best_response`) is not present in the
sources; per §4.1 of the specification the tracker "scans `responses` to
find the maximal value" with "ties broken by earliest occurrence".  The
scan walks the remaining responses (the next element having index `i`),
carrying the best index and value seen so far; a later element replaces
the carried best only when strictly greater, so the earliest occurrence of
the maximum wins. -/
def argmax_from (i : ℕ) (bestIdx : ℕ) (bestVal : ℚ) : List ℚ → ℕ × ℚ
  | [] => (bestIdx, bestVal)
  | y :: ys =>
    if bestVal < y then argmax_from (i + 1) i y ys
    else argmax_from (i + 1) bestIdx bestVal ys

/-- Modelled from the spec: `find_max_response_value(train_X, train_Y)`
(§4.1 `BestResponseTracker.update`): on a non-empty observation set return
the full covariate row at the earliest index of the maximal response,
paired with that response; on an empty set fail (`EmptyHistoryError`,
modelled as `none`). -/
def find_max_response_value (train_X : List (List ℚ)) (train_Y : List ℚ) :
    Option (List ℚ × ℚ) :=
  match train_Y with
  | [] => none
  | y :: ys =>
    let best := argmax_from 1 0 y ys
    some (train_X.getD best.1 [], best.2)

/-- Invariant of the argmax scan: either nothing beat the carried best and
it is returned with every remaining element at most the carried value, or
the result points at a position `j` of the remaining list holding a value
strictly greater than the carried one, strictly greater than everything
before `j`, and at least everything from `j` on. -/
theorem argmax_from_spec (l : List ℚ) : ∀ (i bi : ℕ) (bv : ℚ),
    (argmax_from i bi bv l = (bi, bv) ∧
      ∀ m, m < l.length → l.getD m 0 ≤ bv) ∨
    (∃ j, j < l.length ∧ (argmax_from i bi bv l).1 = i + j ∧
      (argmax_from i bi bv l).2 = l.getD j 0 ∧
      bv < (argmax_from i bi bv l).2 ∧
      (∀ m, m < j → l.getD m 0 < (argmax_from i bi bv l).2) ∧
      (∀ m, j ≤ m → m < l.length → l.getD m 0 ≤ (argmax_from i bi bv l).2)) := by
  induction l with
  | nil =>
    intro i bi bv
    left
    exact ⟨rfl, fun m hm => absurd hm (by simp)⟩
  | cons y ys ih =>
    intro i bi bv
    by_cases h : bv < y
    · have hstep : argmax_from i bi bv (y :: ys) =
          argmax_from (i + 1) i y ys := by
        simp only [argmax_from, if_pos h]
      rcases ih (i + 1) i y with ⟨heq, hall⟩ | ⟨j, hj, h1, h2, h3, h4, h5⟩
      · right
        refine ⟨0, by simp, ?_, ?_, ?_, ?_, ?_⟩
        · rw [hstep, heq]
          rfl
        · rw [hstep, heq, List.getD_cons_zero]
        · rw [hstep, heq]
          exact h
        · intro m hm
          omega
        · intro m _ hm
          rw [hstep, heq]
          match m with
          | 0 => exact le_refl y
          | mm + 1 =>
            rw [List.getD_cons_succ]
            exact hall mm (by simpa using hm)
      · right
        refine ⟨j + 1, by simpa using hj, ?_, ?_, ?_, ?_, ?_⟩
        · rw [hstep, h1]
          omega
        · rw [hstep, List.getD_cons_succ]
          exact h2
        · rw [hstep]
          exact lt_trans h h3
        · intro m hm
          rw [hstep]
          match m with
          | 0 =>
            rw [List.getD_cons_zero]
            exact h3
          | mm + 1 =>
            rw [List.getD_cons_succ]
            exact h4 mm (by omega)
        · intro m hm1 hm2
          rw [hstep]
          match m with
          | mm + 1 =>
            rw [List.getD_cons_succ]
            exact h5 mm (by omega) (by simpa using hm2)
    · have hstep : argmax_from i bi bv (y :: ys) =
          argmax_from (i + 1) bi bv ys := by
        simp only [argmax_from, if_neg h]
      rcases ih (i + 1) bi bv with ⟨heq, hall⟩ | ⟨j, hj, h1, h2, h3, h4, h5⟩
      · left
        refine ⟨by rw [hstep, heq], ?_⟩
        intro m hm
        match m with
        | 0 =>
          rw [List.getD_cons_zero]
          exact le_of_not_lt h
        | mm + 1 =>
          rw [List.getD_cons_succ]
          exact hall mm (by simpa using hm)
      · right
        refine ⟨j + 1, by simpa using hj, ?_, ?_, ?_, ?_, ?_⟩
        · rw [hstep, h1]
          omega
        · rw [hstep, List.getD_cons_succ]
          exact h2
        · rw [hstep]
          exact h3
        · intro m hm
          rw [hstep]
          match m with
          | 0 =>
            rw [List.getD_cons_zero]
            exact lt_of_le_of_lt (le_of_not_lt h) h3
          | mm + 1 =>
            rw [List.getD_cons_succ]
            exact h4 mm (by omega)
        · intro m hm1 hm2
          rw [hstep]
          match m with
          | mm + 1 =>
            rw [List.getD_cons_succ]
            exact h5 mm (by omega) (by simpa using hm2)

/-- Positional bounds transfer to membership. -/
theorem forall_mem_of_forall_getD {l : List ℚ} {v : ℚ}
    (h : ∀ m, m < l.length → l.getD m 0 ≤ v) : ∀ z ∈ l, z ≤ v := by
  intro z hz
  obtain ⟨m, hm, rfl⟩ := List.mem_iff_getElem.mp hz
  rw [← List.getD_eq_getElem l 0 hm]
  exact h m hm

/-- C3: on a non-empty observation set the tracker returns a best value
equal to the maximum of the responses, together with the full covariate row
at the index achieving it, and when several responses tie for the maximum
the earliest index is selected (every strictly earlier response is strictly
smaller). -/
theorem find_max_value_max_earliest (train_X : List (List ℚ))
    (train_Y : List ℚ) (hY : train_Y ≠ [])
    (hlen : train_X.length = train_Y.length) :
    ∃ i v, find_max_response_value train_X train_Y =
        some (train_X.getD i [], v) ∧
      i < train_Y.length ∧ train_Y.getD i 0 = v ∧
      (∀ y ∈ train_Y, y ≤ v) ∧
      (∀ j, j < i → train_Y.getD j 0 < v) := by
  match train_Y, hY with
  | y :: ys, _ =>
    rcases argmax_from_spec ys 1 0 y with ⟨heq, hall⟩ | ⟨j, hj, h1, h2, h3, h4, h5⟩
    · refine ⟨0, y, ?_, by simp, List.getD_cons_zero, ?_, ?_⟩
      · simp only [find_max_response_value, heq]
      · refine forall_mem_of_forall_getD ?_
        intro m hm
        match m with
        | 0 => exact le_of_eq List.getD_cons_zero
        | mm + 1 =>
          rw [List.getD_cons_succ]
          exact hall mm (by simpa using hm)
      · intro jj hjj
        omega
    · refine ⟨j + 1, (argmax_from 1 0 y ys).2, ?_, by simpa using hj, ?_, ?_, ?_⟩
      · simp only [find_max_response_value]
        rw [show (1 : ℕ) + j = j + 1 from by omega] at h1
        rw [h1]
      · rw [List.getD_cons_succ]
        exact h2.symm
      · refine forall_mem_of_forall_getD ?_
        intro m hm
        match m with
        | 0 =>
          rw [List.getD_cons_zero]
          exact le_of_lt h3
        | mm + 1 =>
          rw [List.getD_cons_succ]
          rcases lt_or_le mm j with hmj | hmj
          · exact le_of_lt (h4 mm hmj)
          · exact h5 mm hmj (by simpa using hm)
      · intro jj hjj
        match jj with
        | 0 =>
          rw [List.getD_cons_zero]
          exact h3
        | mm + 1 =>
          rw [List.getD_cons_succ]
          exact h4 mm (by omega)

/-- Witness for C3: responses `[0.2, 2.0, 2.0, 0.5]` with covariate rows
`[[-1],[-1.1],[-0.5],[1]]`: the maximum 2.0 is attained first at index 1. -/
theorem find_max_value_max_earliest_witness :
    ∃ i v, find_max_response_value [[-1], [-11/10], [-1/2], [1]]
        [1/5, 2, 2, 1/2] =
        some ([[-1], [-11/10], [-1/2], [1]].getD i [], v) ∧
      i < List.length [1/5, 2, 2, 1/2] ∧
      List.getD [1/5, 2, 2, 1/2] i 0 = v ∧
      (∀ y ∈ [(1:ℚ)/5, 2, 2, 1/2], y ≤ v) ∧
      (∀ j, j < i → List.getD [1/5, 2, 2, 1/2] j 0 < v) :=
  find_max_value_max_earliest [[-1], [-11/10], [-1/2], [1]] [1/5, 2, 2, 1/2]
    (by simp) (by simp)

end Greattunes
